import Mathlib

/-!
Verification development for `code_analyzer.py`, a tool that scans a source
tree, strips comments to count logical lines, counts LLM tokens per file, and
aggregates production-vs-test statistics.

Strings are modelled as `List Char` (`Str`).  Python string operations used by
the source (`split`, `strip`, `join`, `lower`, slicing) are modelled by the
`py*` functions below.  The external collaborators (file system reads, the
tiktoken tokenizer) are passed in explicitly: file contents as values, the
tokenizer as a function argument `count_tokens : Str → Nat`.  Fallible file
system reads are modelled with `Option` and a raising function with `Except`.
-/

namespace CodeAnalyzer

abbrev Str := List Char

/-- A single apostrophe character (used in the Python triple-quote pattern). -/
def sq : Char := Char.ofNat 39

/-- Python `str.lower()` (ASCII letters; the repository only compares ASCII). -/
def lowerStr (s : Str) : Str := s.map Char.toLower

/-- Python whitespace recognised by `str.strip()` (ASCII subset). -/
def isPySpace (c : Char) : Bool :=
  c = ' ' || c = '\t' || c = '\n' || c = '\r' || c = Char.ofNat 11 || c = Char.ofNat 12

/-- Python `str.strip()`: drop leading and trailing whitespace. -/
def pyStrip (s : Str) : Str :=
  ((s.dropWhile isPySpace).reverse.dropWhile isPySpace).reverse

/-- Python `str.split(sep)` for a one-character separator: splits at every
occurrence of `sep`, keeping empty segments; `"".split(sep) = [""]`. -/
def pySplit (sep : Char) : Str → List Str
  | [] => [[]]
  | c :: rest =>
    if c = sep then [] :: pySplit sep rest
    else
      match pySplit sep rest with
      | s :: ss => (c :: s) :: ss
      | [] => [[c]]

/-- Python `sep.join(parts)`. -/
def pyJoinWith (sep : Str) : List Str → Str
  | [] => []
  | [x] => x
  | x :: xs => x ++ sep ++ pyJoinWith sep xs

/-- Python `posixpath.join` for two components (`os.path.join` on POSIX). -/
def pyJoin (a b : Str) : Str :=
  if List.isPrefixOf ['/'] b then b
  else if a = [] || a.getLast? = some '/' then a ++ b
  else a ++ '/' :: b

/-- Index of the last occurrence of `c` in `s` (Python `str.rfind` on a
one-character needle), `none` when absent. -/
def rfindIdx (c : Char) (s : Str) : Option Nat :=
  (s.reverse.findIdx? (fun x => x = c)).map (fun i => s.length - 1 - i)

/-- Python `os.path.basename`: everything after the last `/`. -/
def basenameStr (p : Str) : Str :=
  match rfindIdx '/' p with
  | some i => p.drop (i + 1)
  | none => p

/-- Python `os.path.splitext(p)[1]` (posixpath): the extension starts at the
last dot of the basename, unless every character of the basename before that
dot is itself a dot (so `.bashrc` has no extension). -/
def splitextExt (p : Str) : Str :=
  match rfindIdx '.' p with
  | none => []
  | some dotIndex =>
    let sepIndex : Nat := match rfindIdx '/' p with | some i => i + 1 | none => 0
    if sepIndex ≤ dotIndex then
      if ((p.drop sepIndex).take (dotIndex - sepIndex)).all (fun c => c = '.') then []
      else p.drop dotIndex
    else []

/-- First index at which `needle` occurs as a substring of `s` (the start of
the leftmost regex match of a literal), `none` when it does not occur. -/
def findSubIdx (needle s : Str) : Option Nat :=
  (List.range (s.length + 1)).find? (fun i => List.isPrefixOf needle (s.drop i))

/-!
## Comment patterns (source lines 126-135)

The source stores comment rules as regular expressions and distinguishes a
multi-line (block) rule from a single-line rule by whether the literal text
`.*?` occurs in the pattern (lines 172, 187, 194).  Every block pattern in the
table has the shape `OPEN.*?CLOSE` with literal `OPEN`/`CLOSE`, applied with
`re.DOTALL`; every line pattern has the shape `START.*` with a literal
`START`.  The two shapes are embedded as the two constructors below.
-/

inductive CPat where
  | cline (start : Str)
  | cblock (opn cls : Str)
deriving DecidableEq

/-- `COMMENT_PATTERNS`: for each group of extensions (the source keys are regex
alternations such as `js|jsx|...`, matched in full against the extension), the
ordered rule list. -/
def COMMENT_PATTERNS : List (List Str × List CPat) :=
  [ ([("py").data],
      [.cline ("#").data, .cblock ("\"\"\"").data ("\"\"\"").data, .cblock [sq,sq,sq] [sq,sq,sq]]),
    ([("js").data, ("jsx").data, ("ts").data, ("tsx").data, ("java").data, ("c").data,
      ("cpp").data, ("h").data, ("hpp").data, ("cs").data, ("go").data, ("php").data,
      ("swift").data, ("kt").data, ("rs").data, ("scala").data, ("dart").data],
      [.cline ("//").data, .cblock ("/*").data ("*/").data]),
    ([("rb").data], [.cline ("#").data, .cblock ("=begin").data ("=end").data]),
    ([("html").data], [.cblock ("<!--").data ("-->").data]),
    ([("css").data, ("scss").data, ("sass").data, ("less").data],
      [.cblock ("/*").data ("*/").data, .cline ("//").data]),
    ([("sh").data], [.cline ("#").data]),
    ([("md").data], []),
    ([("json").data, ("yml").data, ("yaml").data], []) ]

/-- `get_comment_pattern` (lines 158-164): strip leading dots from the
extension, return the rule list of the first group whose alternation matches
the extension in full, else the empty list. -/
def get_comment_pattern (file_ext : Str) : List CPat :=
  let ext := file_ext.dropWhile (fun c => c = '.')
  match COMMENT_PATTERNS.find? (fun e => e.1.contains ext) with
  | some e => e.2
  | none => []

/-- One pass of `re.sub(OPEN.*?CLOSE, "", content, flags=re.DOTALL)`:
repeatedly delete, left to right, the earliest `OPEN` together with the
(lazily) shortest span reaching a following `CLOSE`; an `OPEN` with no later
`CLOSE` matches nothing. -/
def removeBlockFuel : Nat → Str → Str → Str → Str
  | 0, _, _, s => s
  | fuel + 1, opn, cls, s =>
    if opn = [] then s
    else
      match findSubIdx opn s with
      | none => s
      | some i =>
        match findSubIdx cls (s.drop (i + opn.length)) with
        | none => s
        | some j =>
          s.take i ++ removeBlockFuel fuel opn cls ((s.drop (i + opn.length)).drop (j + cls.length))

/-- Entry point for the block-deletion pass.  Every recursion step of
`removeBlockFuel` removes at least one character of `s` (the nonempty `opn`),
so `s.length + 1` units of fuel are never exhausted and the fuel parameter
does not affect the result. -/
def removeBlockAll (opn cls : Str) (s : Str) : Str :=
  removeBlockFuel (s.length + 1) opn cls s

/-- Block-comment phase of `remove_comments` (lines 170-173): each block rule
is applied over the whole text, in table order. -/
def stripBlocks (pats : List CPat) (content : Str) : Str :=
  pats.foldl
    (fun acc p =>
      match p with
      | .cblock opn cls => removeBlockAll opn cls acc
      | .cline _ => acc)
    content

/-- Whole-line comment test (lines 185-189): `re.match("^START.*$", stripped)`
on a newline-free line is exactly "starts with `START`". -/
def isFullLineComment (pats : List CPat) (stripped : Str) : Bool :=
  pats.any fun p =>
    match p with
    | .cline start => List.isPrefixOf start stripped
    | .cblock _ _ => false

/-- Inline-comment removal (lines 192-195): `re.sub("START.*", "", line)` on a
newline-free line deletes everything from the first `START` on; the line rules
are applied in table order. -/
def stripInline (pats : List CPat) (l : Str) : Str :=
  pats.foldl
    (fun acc p =>
      match p with
      | .cline start =>
        match findSubIdx start acc with
        | some i => acc.take i
        | none => acc
      | .cblock _ _ => acc)
    l

/-- `remove_comments` (lines 166-201). -/
def remove_comments (content : Str) (file_ext : Str) : Str :=
  let pats := get_comment_pattern file_ext
  let content2 := stripBlocks pats content
  let lines := pySplit '\n' content2
  let result_lines := lines.filterMap fun line =>
    let line_stripped := pyStrip line
    if line_stripped = [] then none
    else if isFullLineComment pats line_stripped then none
    else
      let line2 := stripInline pats line
      if pyStrip line2 = [] then none else some line2
  pyJoinWith ['\n'] result_lines

/-- `is_binary_file` (lines 149-156): the argument models the raw byte content
of the file; `none` models a raising read (the handler returns `True`). -/
def is_binary_file (bytes : Option (List Nat)) : Bool :=
  match bytes with
  | none => true
  | some bs => (bs.take 1024).contains 0

/-- `analyze_file` (lines 203-226).  The file system and tokenizer are passed
in: `bytes` is the raw content read by `is_binary_file` (`none` = the read
raises), `text` the decoded text content, `textOk = false` models the text
`open`/`read` raising (the `except` clause then returns `(0, 0, "")`), and
`count_tokens` is the external tiktoken-based tokenizer (lines 144-147).
Returns `(loc, token_count, content)`. -/
def analyze_file (count_tokens : Str → Nat) (file_path : Str) (bytes : Option (List Nat))
    (text : Str) (textOk : Bool) : Nat × Nat × Str :=
  if is_binary_file bytes then (0, 0, [])
  else if !textOk then (0, 0, [])
  else
    let file_ext := lowerStr (splitextExt file_path)
    let clean_content := remove_comments text file_ext
    let loc := (pySplit '\n' clean_content).length
    (loc, count_tokens text, text)

/-!
## Test-file detection (source lines 314-341)

The nine `test_patterns` regexes use only: literal characters, `[...]` classes
of literal characters, a one-character optional `c?`, `.*` (with `.` not
matching a newline — no `re.DOTALL` here), and `$` (end of string, or just
before one final trailing newline).  `Re` embeds exactly those constructs and
`reMatch` decides Python `re.match` (a match anchored at the start, the rest
of the string unconstrained).  `re.IGNORECASE` is modelled by matching the
(all-lowercase) patterns against the lowercased input.
-/

inductive Re where
  | lit (c : Char)
  | cls (cs : List Char)
  | opt (c : Char)
  | star
  | eol
deriving DecidableEq

/-- The suffixes of `s` that `.*` can leave behind: `s` itself, and every
suffix reachable by consuming characters none of which is a newline. -/
def starSuffixes : Str → List Str
  | [] => [[]]
  | x :: rest => (x :: rest) :: (if x = '\n' then [] else starSuffixes rest)

/-- Does some match of the sequential pattern `ps` start at the head of `s`? -/
def reMatch : List Re → Str → Bool
  | [], _ => true
  | Re.lit c :: ps, s =>
    match s with
    | x :: rest => c = x && reMatch ps rest
    | [] => false
  | Re.cls cs :: ps, s =>
    match s with
    | x :: rest => cs.contains x && reMatch ps rest
    | [] => false
  | Re.opt c :: ps, s =>
    reMatch ps s ||
      (match s with
       | x :: rest => c = x && reMatch ps rest
       | [] => false)
  | Re.star :: ps, s => (starSuffixes s).any fun t => reMatch ps t
  | Re.eol :: ps, s => (s = [] || s = ['\n']) && reMatch ps s

/-- `r"test[s]?$"` -/
def rTestDir : List Re := [.lit 't', .lit 'e', .lit 's', .lit 't', .opt 's', .eol]

/-- `r"spec[s]?$"` -/
def rSpecDir : List Re := [.lit 's', .lit 'p', .lit 'e', .lit 'c', .opt 's', .eol]

/-- `r"__tests?__"` -/
def rDunderTest : List Re :=
  [.lit '_', .lit '_', .lit 't', .lit 'e', .lit 's', .lit 't', .opt 's', .lit '_', .lit '_']

/-- the class `[._-]` -/
def delimClass : List Char := ['.', '_', '-']

/-- `r".*[._-]tests?[._-].*"` -/
def rInfixTest : List Re :=
  [.star, .cls delimClass, .lit 't', .lit 'e', .lit 's', .lit 't', .opt 's',
   .cls delimClass, .star]

/-- `r".*[._-]specs?[._-].*"` -/
def rInfixSpec : List Re :=
  [.star, .cls delimClass, .lit 's', .lit 'p', .lit 'e', .lit 'c', .opt 's',
   .cls delimClass, .star]

/-- `r"test_.*\..*$"` -/
def rTestUnderscoreName : List Re :=
  [.lit 't', .lit 'e', .lit 's', .lit 't', .lit '_', .star, .lit '.', .star, .eol]

/-- `r".*_test\..*$"` -/
def rUnderscoreTestName : List Re :=
  [.star, .lit '_', .lit 't', .lit 'e', .lit 's', .lit 't', .lit '.', .star, .eol]

/-- `r".*\.tests?\."` -/
def rDotTestName : List Re :=
  [.star, .lit '.', .lit 't', .lit 'e', .lit 's', .lit 't', .opt 's', .lit '.']

/-- `r".*\.spec\."` -/
def rDotSpecName : List Re :=
  [.star, .lit '.', .lit 's', .lit 'p', .lit 'e', .lit 'c', .lit '.']

/-- `test_patterns` (lines 315-325), in source order. -/
def test_patterns : List (List Re) :=
  [rTestDir, rSpecDir, rDunderTest, rInfixTest, rInfixSpec,
   rTestUnderscoreName, rUnderscoreTestName, rDotTestName, rDotSpecName]

/-- The inner loop shared by both checks of `is_test_file`:
`re.match(pattern, part, re.IGNORECASE)` over all nine patterns. -/
def matchesTest (part : Str) : Bool :=
  test_patterns.any fun pattern => reMatch pattern (lowerStr part)

/-- `is_test_file` (lines 327-341): some segment of the path (split on the
platform separator `/`) matches a test pattern, or the file name does. -/
def is_test_file (file_path file_name : Str) : Bool :=
  (pySplit '/' file_path).any (fun part => matchesTest part) || matchesTest file_name

/-!
## Ignore patterns (source lines 33-123 and 237-276)

`fnmatch.fnmatch` on POSIX (where `os.path.normcase` is the identity)
translates a glob into a regex with `*` → `.*` and `?` → `.` under `re.DOTALL`
and a fully anchored match; `[...]`/`[!...]` are character classes (first `]`
literal, `-` ranges, leading/trailing `-` literal, an unterminated `[` is a
literal `[`).  `fnmatchList pattern name` decides that anchored match.
-/

/-- Membership of `c` in the body of a glob character class. -/
def classMatch (body : List Char) (c : Char) : Bool :=
  match body with
  | a :: '-' :: b :: rest => (a ≤ c && c ≤ b) || classMatch rest c
  | a :: rest => a = c || classMatch rest c
  | [] => false

/-- Split a class body at its first `]`: `some (body, rest)` or `none` when
the class is unterminated. -/
def spanUntilRB : Str → Option (Str × Str)
  | [] => none
  | ']' :: rest => some ([], rest)
  | c :: rest =>
    match spanUntilRB rest with
    | some pr => some (c :: pr.1, pr.2)
    | none => none

/-- Parse what follows a `[`: negation flag, class body (a first `]` is a
literal member), rest of the pattern; `none` when there is no closing `]`. -/
def splitClass (ps : Str) : Option (Bool × Str × Str) :=
  let stripped := match ps with
    | '!' :: qs => (true, qs)
    | _ => (false, ps)
  match stripped.2 with
  | ']' :: rs =>
    (match spanUntilRB rs with
     | some pr => some (stripped.1, ']' :: pr.1, pr.2)
     | none => none)
  | _ =>
    (match spanUntilRB stripped.2 with
     | some pr => some (stripped.1, pr.1, pr.2)
     | none => none)

def fnmatchFuel : Nat → Str → Str → Bool
  | 0, _, _ => false
  | fuel + 1, pattern, name =>
    match pattern, name with
    | [], [] => true
    | [], _ :: _ => false
    | '*' :: ps, s =>
      fnmatchFuel fuel ps s ||
        (match s with
         | [] => false
         | _ :: rest => fnmatchFuel fuel ('*' :: ps) rest)
    | '?' :: ps, s =>
      (match s with
       | [] => false
       | _ :: rest => fnmatchFuel fuel ps rest)
    | '[' :: ps, s =>
      (match splitClass ps with
       | none =>
         (match s with
          | c :: rest => '[' = c && fnmatchFuel fuel ps rest
          | [] => false)
       | some cl =>
         (match s with
          | c :: rest => (classMatch cl.2.1 c != cl.1) && fnmatchFuel fuel cl.2.2 rest
          | [] => false))
    | p :: ps, s =>
      (match s with
       | c :: rest => p = c && fnmatchFuel fuel ps rest
       | [] => false)

/-- Shell-glob match of a whole name against a whole pattern.  Every step of
`fnmatchFuel` shrinks `pattern.length + name.length` (a character class in the
pattern consumes at least its closing bracket), so the supplied fuel is never
exhausted and does not affect the result. -/
def fnmatchList (pattern : Str) (name : Str) : Bool :=
  fnmatchFuel (pattern.length + name.length + 1) pattern name

/-- Normalised component list of an absolute POSIX path: what
`posixpath.normpath` keeps after dropping empty and `.` segments and resolving
`..` against the stack (at the root, `..` is discarded). -/
def normCompsAbs (comps : List Str) : List Str :=
  comps.foldl
    (fun acc comp =>
      if comp = [] || comp = (".").data then acc
      else if comp = ("..").data then acc.dropLast
      else acc ++ [comp])
    []

/-- Length of the longest common prefix of two segment lists
(`os.path.commonprefix` applied to the two lists). -/
def commonPrefixLen : List Str → List Str → Nat
  | a :: as, b :: bs => if a = b then commonPrefixLen as bs + 1 else 0
  | _, _ => 0

/-- `posixpath.relpath(path, start)` for absolute, `cwd`-independent inputs
(`abspath` reduces to `normpath` on absolute paths): drop the common segment
prefix, climb with `..` for each remaining `start` segment, descend into the
remaining `path` segments. -/
def relpath (path start : Str) : Str :=
  let path_list := normCompsAbs (pySplit '/' path)
  let start_list := normCompsAbs (pySplit '/' start)
  let i := commonPrefixLen start_list path_list
  let rel_list := List.replicate (start_list.length - i) (("..").data) ++ path_list.drop i
  match rel_list with
  | [] => (".").data
  | l => pyJoinWith ['/'] l

/-- `should_ignore_file` (lines 265-276): the path relative to `base_path`
(with separators already forward slashes on POSIX) and its bare filename are
matched independently against every ignore pattern; either match ignores. -/
def should_ignore_file (file_path base_path : Str) (ignore_patterns : List Str) : Bool :=
  let rel_path := relpath file_path base_path
  ignore_patterns.any fun pattern =>
    fnmatchList pattern rel_path || fnmatchList pattern (basenameStr rel_path)

/-!
## Ignore-pattern resolution (source lines 33-123 and 237-263)
-/

def DEFAULT_IGNORE_common : List Str :=
  [("*.min.js").data, ("*.min.css").data, ("*.map").data, ("*.lock").data,
   ("*.log").data, ("*.pot").data, ("*.mo").data, ("*.pyc").data,
   ("__pycache__/*").data, (".git/*").data, (".svn/*").data, (".hg/*").data,
   (".DS_Store").data, ("Thumbs.db").data]

def DEFAULT_IGNORE_node : List Str :=
  [("package-lock.json").data, ("yarn.lock").data, ("pnpm-lock.yaml").data,
   ("node_modules/*").data, ("bower_components/*").data, (".npm/*").data,
   (".yarn/*").data, ("dist/*").data, ("build/*").data, ("coverage/*").data]

def DEFAULT_IGNORE_python : List Str :=
  [("*.pyc").data, ("*.pyo").data, ("*.pyd").data, (".Python").data,
   ("env/*").data, ("venv/*").data, (".env/*").data, (".venv/*").data,
   ("pip-log.txt").data, ("pip-delete-this-directory.txt").data,
   (".tox/*").data, (".coverage").data, (".coverage.*").data, ("htmlcov/*").data,
   ("*.egg-info/*").data, ("dist/*").data, ("build/*").data, ("eggs/*").data,
   ("lib/*").data, ("lib64/*").data, ("parts/*").data, ("sdist/*").data,
   ("var/*").data, ("*.egg").data]

def DEFAULT_IGNORE_java : List Str :=
  [("*.class").data, ("*.jar").data, ("*.war").data, ("*.ear").data,
   ("*.nar").data, ("target/*").data, (".gradle/*").data, ("build/*").data,
   ("out/*").data, (".idea/*").data, ("*.iml").data, ("*.iws").data,
   ("*.ipr").data, ("gradle-app.setting").data]

def DEFAULT_IGNORE_dotnet : List Str :=
  [("bin/*").data, ("obj/*").data, ("*.suo").data, ("*.user").data,
   ("*.userosscache").data, ("*.sln.docstates").data, ("[Dd]ebug/*").data,
   ("[Rr]elease/*").data, ("x64/*").data, ("x86/*").data,
   ("[Aa][Rr][Mm]/*").data, ("[Aa][Rr][Mm]64/*").data, ("bld/*").data,
   ("[Bb]in/*").data, ("[Oo]bj/*").data, ("[Ll]og/*").data, (".vs/*").data]

/-- The file-system facts `load_ignore_patterns` consults: `os.path.exists`,
the outcome of opening and reading a text file (`none` models a raising
`open`, e.g. on a permission error or a directory), and whether a
`glob.glob` call returns any match. -/
structure FS where
  pathExists : Str → Bool
  readText : Str → Option Str
  globNonempty : Str → Bool

/-- `load_ignore_patterns` (lines 237-263).  The Python `set` is modelled as a
`Finset`.  The result is `Except`: `.error ()` models an uncaught exception
propagating to the caller (the function has no handler around the `open` of
`.codeanalyzerignore`). -/
def load_ignore_patterns (fs : FS) (project_path : Str) : Except Unit (Finset Str) :=
  let ip0 := DEFAULT_IGNORE_common.toFinset
  let ip1 := if fs.pathExists (pyJoin project_path (("package.json").data))
    then ip0 ∪ DEFAULT_IGNORE_node.toFinset else ip0
  let ip2 := if fs.pathExists (pyJoin project_path (("requirements.txt").data)) ||
      fs.pathExists (pyJoin project_path (("setup.py").data))
    then ip1 ∪ DEFAULT_IGNORE_python.toFinset else ip1
  let ip3 := if fs.pathExists (pyJoin project_path (("pom.xml").data)) ||
      fs.pathExists (pyJoin project_path (("build.gradle").data))
    then ip2 ∪ DEFAULT_IGNORE_java.toFinset else ip2
  let ip4 := if fs.globNonempty (pyJoin project_path (("*.csproj").data)) ||
      fs.globNonempty (pyJoin project_path (("*.sln").data))
    then ip3 ∪ DEFAULT_IGNORE_dotnet.toFinset else ip3
  let ignore_file := pyJoin project_path ((".codeanalyzerignore").data)
  if fs.pathExists ignore_file then
    match fs.readText ignore_file with
    | none => .error ()
    | some content =>
      .ok ((pySplit '\n' content).foldl
        (fun acc l =>
          let line := pyStrip l
          if line ≠ [] && !(List.isPrefixOf ['#'] line) then insert line acc else acc)
        ip4)
  else .ok ip4

/-!
## Aggregation (source lines 278-380)

`analyze_project` walks the tree with `os.walk` (an external iterator); the
walk's output is modelled as a list of `WalkEntry` (directory path and file
name as yielded after directory pruning, together with the file-system facts
about that file).  `processFile` embeds the body of the inner `for file in
files` loop (lines 348-378) and `analyzeWalk` folds it over the walk output
starting from the empty statistics of lines 297-312.
-/

/-- `DEFAULT_EXTENSIONS` (lines 25-30). -/
def DEFAULT_EXTENSIONS : List Str :=
  [(".py").data, (".js").data, (".jsx").data, (".ts").data, (".tsx").data,
   (".java").data, (".c").data, (".cpp").data, (".h").data, (".hpp").data,
   (".cs").data, (".go").data, (".rb").data, (".php").data, (".swift").data,
   (".kt").data, (".rs").data, (".scala").data, (".sh").data, (".html").data,
   (".css").data, (".scss").data, (".sass").data, (".less").data,
   (".json").data, (".yml").data, (".yaml").data, (".md").data, (".dart").data]

/-- Per-extension accumulator (`stats_by_ext` values). -/
structure ExtStat where
  files : Nat
  loc : Nat
  tokens : Nat
deriving DecidableEq

/-- One category's accumulator (lines 298-311).  `stats_by_ext` is the
`defaultdict` as an association list in first-use order; `top_files` holds
`(rel_path, tokens, loc)` triples. -/
structure CatStats where
  total_files : Nat
  total_loc : Nat
  total_tokens : Nat
  stats_by_ext : List (Str × ExtStat)
  top_files : List (Str × Nat × Nat)
deriving DecidableEq

def CatStats.init : CatStats := ⟨0, 0, 0, [], []⟩

/-- The production/test pair (the `stats` dict). -/
structure Stats where
  production : CatStats
  test : CatStats
deriving DecidableEq

def Stats.init : Stats := ⟨CatStats.init, CatStats.init⟩

/-- `stats[category]["stats_by_ext"][ext] += ...` on the `defaultdict`
(lines 369-371): update in place, or append a fresh entry on first use. -/
def updExt (m : List (Str × ExtStat)) (ext : Str) (loc tokens : Nat) : List (Str × ExtStat) :=
  match m with
  | [] => [(ext, ⟨1, loc, tokens⟩)]
  | (k, v) :: rest =>
    if k = ext then (k, ⟨v.files + 1, v.loc + loc, v.tokens + tokens⟩) :: rest
    else (k, v) :: updExt rest ext loc tokens

/-- The comparison realised by `sort(key=lambda x: x[1], reverse=True)`:
descending by token count.  Python's sort is stable and `reverse=True` keeps
equal-key elements in their original order, which is exactly `mergeSort` with
this relation. -/
def tokensDesc (a b : Str × Nat × Nat) : Bool := b.2.1 ≤ a.2.1

/-- Fold one analyzed file into a category (lines 365-378): bump the totals,
the per-extension stats, append to `top_files`, stable-sort descending by
token count and truncate to 10. -/
def foldRecord (cs : CatStats) (ext rel_path : Str) (loc tokens : Nat) : CatStats :=
  { total_files := cs.total_files + 1
    total_loc := cs.total_loc + loc
    total_tokens := cs.total_tokens + tokens
    stats_by_ext := updExt cs.stats_by_ext ext loc tokens
    top_files := ((cs.top_files ++ [(rel_path, tokens, loc)]).mergeSort tokensDesc).take 10 }

/-- One file yielded by the (external) `os.walk` iteration: the directory
`root`, the bare file `name`, and the file-system facts `analyze_file` will
observe for it (raw bytes, decoded text, whether the text read succeeds). -/
structure WalkEntry where
  root : Str
  name : Str
  bytes : Option (List Nat)
  text : Str
  textOk : Bool

/-- Body of the per-file loop of `analyze_project` (lines 348-378). -/
def processFile (count_tokens : Str → Nat) (project_path : Str) (extensions : List Str)
    (ignore_patterns : List Str) (stats : Stats) (e : WalkEntry) : Stats :=
  let file_path := pyJoin e.root e.name
  if should_ignore_file file_path project_path ignore_patterns then stats
  else
    let file_ext := lowerStr (splitextExt e.name)
    if extensions.contains file_ext then
      let r := analyze_file count_tokens file_path e.bytes e.text e.textOk
      if r.1 > 0 then
        let is_test := is_test_file file_path e.name
        let rel_path := relpath file_path project_path
        if is_test then
          { stats with test := foldRecord stats.test file_ext rel_path r.1 r.2.1 }
        else
          { stats with production := foldRecord stats.production file_ext rel_path r.1 r.2.1 }
      else stats
    else stats

/-- The whole aggregation phase of `analyze_project` over the walk output. -/
def analyzeWalk (count_tokens : Str → Nat) (project_path : Str) (extensions : List Str)
    (ignore_patterns : List Str) (entries : List WalkEntry) : Stats :=
  entries.foldl (processFile count_tokens project_path extensions ignore_patterns) Stats.init

/-- Number of non-blank lines of a text, stated from the specification's words
("the number of non-blank lines in the original content"), for comparison
with the line count computed by `analyze_file`. -/
def nonBlankCount (content : Str) : Nat :=
  ((pySplit '\n' content).filter (fun l => pyStrip l ≠ [])).length

/-!
## Helper lemmas on the Python string primitives
-/

theorem pySplit_ne_nil (sep : Char) (l : Str) : pySplit sep l ≠ [] := by
  induction l with
  | nil => simp [pySplit]
  | cons c rest ih =>
    simp only [pySplit]
    split
    · simp
    · rcases h : pySplit sep rest with _ | ⟨s, ss⟩
      · simp
      · simp

theorem length_pySplit_pos (sep : Char) (l : Str) : 1 ≤ (pySplit sep l).length := by
  have h := pySplit_ne_nil sep l
  rcases hs : pySplit sep l with _ | ⟨s, ss⟩
  · exact absurd hs h
  · simp

theorem not_mem_of_mem_pySplit (sep : Char) (s : Str) :
    ∀ l ∈ pySplit sep s, sep ∉ l := by
  induction s with
  | nil =>
    intro l hl
    simp [pySplit] at hl
    simp [hl]
  | cons c rest ih =>
    intro l hl
    simp only [pySplit] at hl
    by_cases hc : c = sep
    · simp only [if_pos hc] at hl
      rcases List.mem_cons.mp hl with h1 | h1
      · simp [h1]
      · exact ih l h1
    · simp only [if_neg hc] at hl
      rcases h : pySplit sep rest with _ | ⟨s0, ss⟩
      · exact absurd h (pySplit_ne_nil sep rest)
      · rw [h] at hl
        rcases List.mem_cons.mp hl with h1 | h1
        · subst h1
          intro hmem
          rcases List.mem_cons.mp hmem with h2 | h2
          · exact hc h2.symm
          · exact ih s0 (by rw [h]; exact List.mem_cons_self s0 ss) h2
        · exact ih l (by rw [h]; exact List.mem_cons_of_mem s0 h1)

theorem pySplit_of_not_mem (sep : Char) (l : Str) (h : sep ∉ l) :
    pySplit sep l = [l] := by
  induction l with
  | nil => simp [pySplit]
  | cons c rest ih =>
    have hc : ¬ c = sep := fun hcc => h (by simp [hcc])
    have hrest : sep ∉ rest := fun hm => h (List.mem_cons_of_mem c hm)
    simp only [pySplit, if_neg hc, ih hrest]

theorem pySplit_append_cons (sep : Char) (xs ys : Str) :
    pySplit sep (xs ++ sep :: ys) = pySplit sep xs ++ pySplit sep ys := by
  induction xs with
  | nil => simp [pySplit]
  | cons x xs ih =>
    by_cases hx : x = sep
    · simp only [List.cons_append, pySplit, if_pos hx, List.append_eq]
      rw [ih]
    · simp only [List.cons_append, pySplit, if_neg hx, List.append_eq]
      rw [ih]
      rcases h : pySplit sep xs with _ | ⟨s, ss⟩
      · exact absurd h (pySplit_ne_nil sep xs)
      · simp

theorem pySplit_pyJoinWith (sep : Char) (ls : List Str) (hne : ls ≠ [])
    (hfree : ∀ l ∈ ls, sep ∉ l) :
    pySplit sep (pyJoinWith [sep] ls) = ls := by
  induction ls with
  | nil => exact absurd rfl hne
  | cons l rest ih =>
    cases rest with
    | nil =>
      simp only [pyJoinWith]
      exact pySplit_of_not_mem sep l (hfree l (List.mem_singleton.mpr rfl))
    | cons l2 rest2 =>
      have hjoin : pyJoinWith [sep] (l :: l2 :: rest2) =
          l ++ sep :: pyJoinWith [sep] (l2 :: rest2) := by
        simp [pyJoinWith]
      rw [hjoin, pySplit_append_cons,
        pySplit_of_not_mem sep l (hfree l (List.mem_cons_self l (l2 :: rest2))),
        ih (by simp) (fun x hx => hfree x (List.mem_cons_of_mem l hx))]
      rfl

theorem filterMap_drop_ite {α : Type} (p : α → Prop) [DecidablePred p] (l : List α) :
    (l.filterMap fun a => if p a then none else if p a then none else some a) =
      l.filter fun a => decide ¬ p a := by
  induction l with
  | nil => rfl
  | cons x xs ih =>
    by_cases hx : p x
    · simp [List.filterMap_cons, List.filter_cons, hx, ih]
    · simp [List.filterMap_cons, List.filter_cons, hx, ih]

/-- `remove_comments` under an empty rule list keeps exactly the non-blank
lines, rejoined by newlines. -/
theorem remove_comments_of_no_rules (text file_ext : Str)
    (h : get_comment_pattern file_ext = []) :
    remove_comments text file_ext =
      pyJoinWith ['\n'] ((pySplit '\n' text).filter fun l => decide ¬ pyStrip l = []) := by
  unfold remove_comments
  rw [h]
  simp only [stripBlocks, isFullLineComment, stripInline, List.foldl_nil, List.any_nil,
    Bool.false_eq_true, if_false]
  rw [filterMap_drop_ite (fun line => pyStrip line = []) (pySplit '\n' text)]

/-!
## Claim C1
-/

/-- C1 counterexample: with the `md` extension (empty comment-rule list) and a
content with zero non-blank lines (the empty content), the pipeline reports a
logical-line count of 1, not the 0 non-blank lines of the original content, so
the claim's "including when the content has zero non-blank lines" is false on
the code. -/
theorem C1_counterexample :
    (analyze_file (fun _ => 0) (("a.md").data) (some []) [] true).1 = 1 ∧
      nonBlankCount [] = 0 ∧
      (analyze_file (fun _ => 0) (("a.md").data) (some []) [] true).1 ≠ nonBlankCount [] := by
  refine ⟨by decide, by decide, by decide⟩

/-- C1 (amended): for every non-binary, readable file whose extension has an
empty comment-rule list, the logical-line count returned by the pipeline
(`remove_comments` followed by the line count in `analyze_file`) equals the
number of non-blank lines of the original content whenever that number is
positive, and equals 1 when the content has zero non-blank lines — i.e. it is
`max 1 (number of non-blank lines)`. -/
theorem C1_loc_no_rules (count_tokens : Str → Nat) (file_path : Str)
    (bytes : Option (List Nat)) (text : Str)
    (hb : is_binary_file bytes = false)
    (h : get_comment_pattern (lowerStr (splitextExt file_path)) = []) :
    (analyze_file count_tokens file_path bytes text true).1 = max 1 (nonBlankCount text) := by
  unfold analyze_file
  rw [hb]
  simp only [Bool.not_true, Bool.false_eq_true, if_false]
  rw [remove_comments_of_no_rules text _ h]
  rcases hk : (pySplit '\n' text).filter (fun l => decide ¬ pyStrip l = []) with _ | ⟨k, ks⟩
  · have h0 : nonBlankCount text = 0 := by
      unfold nonBlankCount
      simp only [ne_eq]
      rw [hk]
      rfl
    rw [h0]
    decide
  · have hfree : ∀ l ∈ k :: ks, '\n' ∉ l := by
      intro l hl
      have hmem : l ∈ (pySplit '\n' text).filter (fun l => decide ¬ pyStrip l = []) := by
        rw [hk]; exact hl
      exact not_mem_of_mem_pySplit '\n' text l (List.mem_of_mem_filter hmem)
    rw [pySplit_pyJoinWith '\n' (k :: ks) (by simp) hfree]
    have hn : nonBlankCount text = (k :: ks).length := by
      unfold nonBlankCount
      simp only [ne_eq]
      rw [hk]
    rw [hn, Nat.max_eq_right (by simp : 1 ≤ (k :: ks).length)]

/-- C1 witness: a `.md` file with two non-blank lines out of three. -/
theorem C1_witness :
    (analyze_file (fun _ => 0) (("a.md").data) (some [104]) (("x\n\ny").data) true).1 =
      max 1 (nonBlankCount (("x\n\ny").data)) :=
  C1_loc_no_rules (fun _ => 0) (("a.md").data) (some [104]) (("x\n\ny").data)
    (by decide) (by decide)

/-!
## Claim C2
-/

/-- C2: for every analyzed (non-binary, readable) file, the token count
reported by `analyze_file` is `count_tokens` applied to the original,
unmodified content — and therefore does not depend on the file's
path/extension, i.e. comment stripping never changes the reported token
total. -/
theorem C2_tokens_on_raw_content (count_tokens : Str → Nat) (file_path : Str)
    (bytes : Option (List Nat)) (text : Str)
    (hb : is_binary_file bytes = false) :
    (analyze_file count_tokens file_path bytes text true).2.1 = count_tokens text ∧
      ∀ other_path : Str,
        (analyze_file count_tokens file_path bytes text true).2.1 =
          (analyze_file count_tokens other_path bytes text true).2.1 := by
  constructor
  · unfold analyze_file
    rw [hb]
    rfl
  · intro other_path
    unfold analyze_file
    rw [hb]
    rfl

/-- C2 witness: a Python file and a Ruby path report the identical token
count, namely the tokenizer applied to the raw content. -/
theorem C2_witness :
    (analyze_file List.length (("m.py").data) (some [1]) (("x = 1\n# c").data) true).2.1 =
        List.length (("x = 1\n# c").data) ∧
      (analyze_file List.length (("m.py").data) (some [1]) (("x = 1\n# c").data) true).2.1 =
        (analyze_file List.length (("m.rb").data) (some [1]) (("x = 1\n# c").data) true).2.1 :=
  ⟨(C2_tokens_on_raw_content List.length (("m.py").data) (some [1]) (("x = 1\n# c").data)
      (by decide)).1,
   (C2_tokens_on_raw_content List.length (("m.py").data) (some [1]) (("x = 1\n# c").data)
      (by decide)).2 (("m.rb").data)⟩

/-!
## Claim C9
-/

/-- C9: for every readable, non-binary file the logical-line count of
`analyze_file` is at least 1 (splitting even an empty cleaned text on newline
yields one segment), and consequently every in-scope, non-ignored such file is
folded into the statistics: the combined file total rises by exactly one. -/
theorem C9_loc_at_least_one (count_tokens : Str → Nat) :
    (∀ (file_path : Str) (bytes : Option (List Nat)) (text : Str),
       is_binary_file bytes = false →
       1 ≤ (analyze_file count_tokens file_path bytes text true).1) ∧
    (∀ (pp : Str) (exts pats : List Str) (stats : Stats) (e : WalkEntry),
       is_binary_file e.bytes = false → e.textOk = true →
       should_ignore_file (pyJoin e.root e.name) pp pats = false →
       exts.contains (lowerStr (splitextExt e.name)) = true →
       (processFile count_tokens pp exts pats stats e).production.total_files +
         (processFile count_tokens pp exts pats stats e).test.total_files =
         stats.production.total_files + stats.test.total_files + 1) := by
  have hloc : ∀ (file_path : Str) (bytes : Option (List Nat)) (text : Str),
      is_binary_file bytes = false →
      1 ≤ (analyze_file count_tokens file_path bytes text true).1 := by
    intro fp bytes text hb
    unfold analyze_file
    rw [hb]
    simp only [Bool.not_true, Bool.false_eq_true, if_false]
    exact length_pySplit_pos '\n' _
  refine ⟨hloc, ?_⟩
  intro pp exts pats stats e hb htk hig hext
  have hpos := hloc (pyJoin e.root e.name) e.bytes e.text hb
  unfold processFile
  rw [htk] at *
  simp only [hig, Bool.false_eq_true, if_false, hext, if_true]
  rw [if_pos (by omega : (analyze_file count_tokens (pyJoin e.root e.name) e.bytes e.text true).1 > 0)]
  cases hti : is_test_file (pyJoin e.root e.name) e.name
  · simp only [Bool.false_eq_true, if_false, foldRecord]
    omega
  · simp only [if_true, foldRecord]
    omega

/-- C9 witness: a Python file consisting of a single comment line still counts
one logical line and is folded into the totals. -/
theorem C9_witness :
    1 ≤ (analyze_file List.length (("/p/a.py").data) (some [35]) (("# only a comment").data) true).1 ∧
      (processFile List.length (("/p").data) [(".py").data] [] Stats.init
          ⟨("/p").data, ("a.py").data, some [35], ("# only a comment").data, true⟩).production.total_files +
        (processFile List.length (("/p").data) [(".py").data] [] Stats.init
          ⟨("/p").data, ("a.py").data, some [35], ("# only a comment").data, true⟩).test.total_files =
        Stats.init.production.total_files + Stats.init.test.total_files + 1 :=
  ⟨(C9_loc_at_least_one List.length).1 (("/p/a.py").data) (some [35])
      (("# only a comment").data) (by decide),
   (C9_loc_at_least_one List.length).2 (("/p").data) [(".py").data] [] Stats.init
      ⟨("/p").data, ("a.py").data, some [35], ("# only a comment").data, true⟩
      (by decide) rfl (by decide) (by decide)⟩

/-!
## Segment lemmas for `pyJoin`
-/

theorem pySplit_concat_sep (sep : Char) (as : Str) :
    pySplit sep (as ++ [sep]) = pySplit sep as ++ [[]] := by
  have h : as ++ [sep] = as ++ sep :: [] := rfl
  rw [h, pySplit_append_cons]
  rfl

/-- Every `/`-segment of `pyJoin d name` is a segment of `d` or of `name`
(when `name` is not absolute). -/
theorem mem_pySplit_pyJoin (d name seg : Str)
    (hn : List.isPrefixOf ['/'] name = false)
    (hseg : seg ∈ pySplit '/' (pyJoin d name)) :
    seg ∈ pySplit '/' d ∨ seg ∈ pySplit '/' name := by
  unfold pyJoin at hseg
  simp only [hn, Bool.false_eq_true, if_false] at hseg
  by_cases hd : d = []
  · subst hd
    simp at hseg
    exact Or.inr hseg
  · rcases List.eq_nil_or_concat d with h | ⟨as, a, hconc⟩
    · exact absurd h hd
    · rw [List.concat_eq_append] at hconc
      by_cases ha : a = '/'
      · subst ha hconc
        have hcond : (decide (as ++ ['/'] = []) || decide ((as ++ ['/']).getLast? = some '/')) = true := by
          simp [List.getLast?_concat]
        rw [hcond] at hseg
        simp only [if_true] at hseg
        have : as ++ ['/'] ++ name = as ++ '/' :: name := by
          rw [List.append_assoc]
          rfl
        rw [this, pySplit_append_cons] at hseg
        rcases List.mem_append.mp hseg with h | h
        · exact Or.inl (by rw [pySplit_concat_sep]; exact List.mem_append_left _ h)
        · exact Or.inr h
      · have hcond : (decide (d = []) || decide (d.getLast? = some '/')) = false := by
          subst hconc
          simp [List.getLast?_concat, hd, ha]
        rw [hcond] at hseg
        simp only [Bool.false_eq_true, if_false] at hseg
        rw [pySplit_append_cons] at hseg
        exact (List.mem_append.mp hseg).imp id id

/-- A nonempty `/`-segment of `d` is still a segment of `pyJoin d name`
(when `name` is not absolute). -/
theorem mem_pySplit_pyJoin_left (d name seg : Str)
    (hn : List.isPrefixOf ['/'] name = false)
    (hseg : seg ∈ pySplit '/' d) (hne : seg ≠ []) :
    seg ∈ pySplit '/' (pyJoin d name) := by
  unfold pyJoin
  simp only [hn, Bool.false_eq_true, if_false]
  by_cases hd : d = []
  · subst hd
    simp only [pySplit] at hseg
    simp at hseg
    exact absurd hseg hne
  · rcases List.eq_nil_or_concat d with h | ⟨as, a, hconc⟩
    · exact absurd h hd
    · rw [List.concat_eq_append] at hconc
      by_cases ha : a = '/'
      · subst ha hconc
        have hcond : (decide (as ++ ['/'] = []) || decide ((as ++ ['/']).getLast? = some '/')) = true := by
          simp [List.getLast?_concat]
        rw [hcond]
        simp only [if_true]
        have : as ++ ['/'] ++ name = as ++ '/' :: name := by
          rw [List.append_assoc]
          rfl
        rw [this, pySplit_append_cons]
        rw [pySplit_concat_sep] at hseg
        rcases List.mem_append.mp hseg with h | h
        · exact List.mem_append_left _ h
        · simp at h
          exact absurd h hne
      · have hcond : (decide (d = []) || decide (d.getLast? = some '/')) = false := by
          subst hconc
          simp [List.getLast?_concat, hd, ha]
        rw [hcond]
        simp only [Bool.false_eq_true, if_false]
        rw [pySplit_append_cons]
        exact List.mem_append_left _ hseg

/-!
## Claims C4, C5, C10 — test-file classification
-/

theorem matchesTest_of_lower_eq (seg : Str)
    (h : lowerStr seg = ("test").data ∨ lowerStr seg = ("tests").data ∨
         lowerStr seg = ("spec").data ∨ lowerStr seg = ("specs").data) :
    matchesTest seg = true := by
  unfold matchesTest
  rcases h with h | h | h | h <;> simp only [h] <;> decide

/-- C4: a path segment exactly equal (in any letter case) to `test`, `tests`,
`spec` or `specs` makes `is_test_file` classify the file as test, while a
segment that merely contains such a word unanchored (the directory `contests`)
does not cause a test classification. -/
theorem C4_segment_match_is_anchored :
    (∀ file_path file_name seg : Str, seg ∈ pySplit '/' file_path →
       (lowerStr seg = ("test").data ∨ lowerStr seg = ("tests").data ∨
        lowerStr seg = ("spec").data ∨ lowerStr seg = ("specs").data) →
       is_test_file file_path file_name = true) ∧
    is_test_file (("project/contests/main.py").data) (("main.py").data) = false := by
  constructor
  · intro fp fn seg hmem hl
    unfold is_test_file
    have hany : (pySplit '/' fp).any (fun part => matchesTest part) = true :=
      List.any_eq_true.mpr ⟨seg, hmem, matchesTest_of_lower_eq seg hl⟩
    rw [hany, Bool.true_or]
  · decide

/-- C4 witness: an upper-case `TESTS` directory segment classifies as test. -/
theorem C4_witness :
    is_test_file (("a/TESTS/m.py").data) (("m.py").data) = true :=
  C4_segment_match_is_anchored.1 (("a/TESTS/m.py").data) (("m.py").data)
    (("TESTS").data) (by decide) (Or.inr (Or.inl (by decide)))

/-- C5: when no directory segment matches a test pattern, classification falls
to the bare filename: `utils_test.go` is test, `utils.go` is production. -/
theorem C5_filename_classification (d : Str)
    (hseg : ∀ seg ∈ pySplit '/' d, matchesTest seg = false) :
    is_test_file (pyJoin d (("utils_test.go").data)) (("utils_test.go").data) = true ∧
      is_test_file (pyJoin d (("utils.go").data)) (("utils.go").data) = false := by
  constructor
  · unfold is_test_file
    have hname : matchesTest (("utils_test.go").data) = true := by decide
    rw [hname, Bool.or_true]
  · unfold is_test_file
    have hname : matchesTest (("utils.go").data) = false := by decide
    rw [hname, Bool.or_false]
    rw [List.any_eq_false]
    intro seg hsegmem
    rcases mem_pySplit_pyJoin d (("utils.go").data) seg (by decide) hsegmem with h | h
    · simp [hseg seg h]
    · have heq : seg = ("utils.go").data := by
        rw [pySplit_of_not_mem '/' (("utils.go").data) (by decide)] at h
        simpa using h
      rw [heq, hname]
      simp

/-- C5 witness: under the neutral directory `proj/src`, `utils_test.go` is
classified as test and `utils.go` as production. -/
theorem C5_witness :
    is_test_file (pyJoin (("proj/src").data) (("utils_test.go").data))
        (("utils_test.go").data) = true ∧
      is_test_file (pyJoin (("proj/src").data) (("utils.go").data))
        (("utils.go").data) = false :=
  C5_filename_classification (("proj/src").data) (by decide)

theorem is_test_file_of_tests_root (root name : Str)
    (h1 : ("tests").data ∈ pySplit '/' root)
    (h2 : List.isPrefixOf ['/'] name = false) :
    is_test_file (pyJoin root name) name = true := by
  unfold is_test_file
  have hmem : ("tests").data ∈ pySplit '/' (pyJoin root name) :=
    mem_pySplit_pyJoin_left root name (("tests").data) h2 h1 (by decide)
  have hany : (pySplit '/' (pyJoin root name)).any (fun part => matchesTest part) = true :=
    List.any_eq_true.mpr ⟨("tests").data, hmem, by decide⟩
  rw [hany, Bool.true_or]

theorem processFile_production_of_tests_root (count_tokens : Str → Nat)
    (pp : Str) (exts pats : List Str) (stats : Stats) (e : WalkEntry)
    (h1 : ("tests").data ∈ pySplit '/' e.root)
    (h2 : List.isPrefixOf ['/'] e.name = false) :
    (processFile count_tokens pp exts pats stats e).production = stats.production := by
  simp only [processFile]
  split
  · rfl
  · split
    · split
      · rw [is_test_file_of_tests_root e.root e.name h1 h2]
        simp only [if_true]
      · rfl
    · rfl

theorem analyzeWalk_production_of_tests_root (count_tokens : Str → Nat)
    (pp : Str) (exts pats : List Str) :
    ∀ (entries : List WalkEntry) (stats : Stats),
      (∀ e ∈ entries, ("tests").data ∈ pySplit '/' e.root ∧
        List.isPrefixOf ['/'] e.name = false) →
      (entries.foldl (processFile count_tokens pp exts pats) stats).production =
        stats.production := by
  intro entries
  induction entries with
  | nil => intro stats _; rfl
  | cons e rest ih =>
    intro stats hall
    have he := hall e (List.mem_cons_self e rest)
    rw [List.foldl_cons,
      ih (processFile count_tokens pp exts pats stats e)
        (fun x hx => hall x (List.mem_cons_of_mem e hx)),
      processFile_production_of_tests_root count_tokens pp exts pats stats e he.1 he.2]

/-- C10: `is_test_file` inspects every segment of the absolute path, including
directories above the project root: any file joined under a root that contains
a `tests` segment is classified as test, and an analysis walk whose directory
paths all lie under such an ancestor folds nothing into the production
category. -/
theorem C10_ancestor_segment_leaks (count_tokens : Str → Nat) :
    (∀ root name : Str, ("tests").data ∈ pySplit '/' root →
       List.isPrefixOf ['/'] name = false →
       is_test_file (pyJoin root name) name = true) ∧
    (∀ (pp : Str) (exts pats : List Str) (entries : List WalkEntry),
       (∀ e ∈ entries, ("tests").data ∈ pySplit '/' e.root ∧
         List.isPrefixOf ['/'] e.name = false) →
       (analyzeWalk count_tokens pp exts pats entries).production = CatStats.init) := by
  refine ⟨is_test_file_of_tests_root, ?_⟩
  intro pp exts pats entries hall
  unfold analyzeWalk
  rw [analyzeWalk_production_of_tests_root count_tokens pp exts pats entries Stats.init hall]
  rfl

/-- C10 witness: a project rooted under `/home/user/tests/myproject` puts an
ordinary `src/main.py` into the test category; the production side stays
empty. -/
theorem C10_witness :
    is_test_file (pyJoin (("/home/user/tests/myproject/src").data) (("main.py").data))
        (("main.py").data) = true ∧
      (analyzeWalk List.length (("/home/user/tests/myproject").data) DEFAULT_EXTENSIONS []
          [⟨("/home/user/tests/myproject/src").data, ("main.py").data, some [104],
            ("x = 1").data, true⟩]).production = CatStats.init :=
  ⟨(C10_ancestor_segment_leaks List.length).1 (("/home/user/tests/myproject/src").data)
      (("main.py").data) (by decide) (by decide),
   (C10_ancestor_segment_leaks List.length).2 (("/home/user/tests/myproject").data)
      DEFAULT_EXTENSIONS []
      [⟨("/home/user/tests/myproject/src").data, ("main.py").data, some [104],
        ("x = 1").data, true⟩]
      (by intro e he; simp at he; rw [he]; exact ⟨by decide, by decide⟩)⟩

/-!
## Claim C6 — binary files are excluded entirely
-/

/-- C6: a file whose first 1024 bytes contain a null byte, or whose byte read
fails (`bytes = none`), leaves the statistics of both categories untouched:
the per-file fold is the identity, and deleting the file from the walk does
not change the analysis result at all (so it contributes zero to every total
and never appears in a top-files list). -/
theorem C6_binary_contributes_nothing (count_tokens : Str → Nat) (pp : Str)
    (exts pats : List Str) (e : WalkEntry)
    (hb : is_binary_file e.bytes = true) :
    (∀ stats : Stats, processFile count_tokens pp exts pats stats e = stats) ∧
      ∀ pre post : List WalkEntry,
        analyzeWalk count_tokens pp exts pats (pre ++ e :: post) =
          analyzeWalk count_tokens pp exts pats (pre ++ post) := by
  have hzero : analyze_file count_tokens (pyJoin e.root e.name) e.bytes e.text e.textOk =
      (0, 0, []) := by
    unfold analyze_file
    rw [hb]
    simp
  have hstep : ∀ stats : Stats, processFile count_tokens pp exts pats stats e = stats := by
    intro stats
    simp only [processFile, hzero]
    split
    · rfl
    · split
      · simp
      · rfl
  refine ⟨hstep, ?_⟩
  intro pre post
  unfold analyzeWalk
  rw [List.foldl_append, List.foldl_cons, hstep, List.foldl_append]

/-- C6 witness: a file starting with a null byte is skipped and two concrete
walks (with and without it) agree. -/
theorem C6_witness :
    processFile List.length (("/p").data) DEFAULT_EXTENSIONS [] Stats.init
        ⟨("/p").data, ("blob.py").data, some [0, 7], ("x").data, true⟩ = Stats.init ∧
      analyzeWalk List.length (("/p").data) DEFAULT_EXTENSIONS []
          ([⟨("/p").data, ("a.py").data, some [104], ("x = 1").data, true⟩] ++
            ⟨("/p").data, ("blob.py").data, some [0, 7], ("x").data, true⟩ ::
              [⟨("/p").data, ("b.py").data, some [105], ("y = 2").data, true⟩]) =
        analyzeWalk List.length (("/p").data) DEFAULT_EXTENSIONS []
          ([⟨("/p").data, ("a.py").data, some [104], ("x = 1").data, true⟩] ++
            [⟨("/p").data, ("b.py").data, some [105], ("y = 2").data, true⟩]) :=
  ⟨(C6_binary_contributes_nothing List.length (("/p").data) DEFAULT_EXTENSIONS []
      ⟨("/p").data, ("blob.py").data, some [0, 7], ("x").data, true⟩ (by decide)).1 Stats.init,
   (C6_binary_contributes_nothing List.length (("/p").data) DEFAULT_EXTENSIONS []
      ⟨("/p").data, ("blob.py").data, some [0, 7], ("x").data, true⟩ (by decide)).2
     [⟨("/p").data, ("a.py").data, some [104], ("x = 1").data, true⟩]
     [⟨("/p").data, ("b.py").data, some [105], ("y = 2").data, true⟩]⟩

/-!
## Claim C7 — the top-files invariant
-/

theorem pairwise_of_forall_mem {α : Type} {R : α → α → Prop} :
    ∀ l : List α, (∀ a ∈ l, ∀ b ∈ l, R a b) → l.Pairwise R := by
  intro l
  induction l with
  | nil => intro _; exact List.Pairwise.nil
  | cons x xs ih =>
    intro h
    refine List.Pairwise.cons ?_ (ih ?_)
    · intro b hb
      exact h x (List.mem_cons_self x xs) b (List.mem_cons_of_mem x hb)
    · intro a ha b hb
      exact h a (List.mem_cons_of_mem x ha) b (List.mem_cons_of_mem x hb)

theorem tokensDesc_trans : ∀ a b c : Str × Nat × Nat,
    tokensDesc a b → tokensDesc b c → tokensDesc a c := by
  intro a b c hab hbc
  simp only [tokensDesc, decide_eq_true_eq] at *
  omega

theorem tokensDesc_total : ∀ a b : Str × Nat × Nat, tokensDesc a b || tokensDesc b a := by
  intro a b
  simp only [tokensDesc]
  rcases Nat.le_total a.2.1 b.2.1 with h | h <;> simp [h]

/-- C7: after every fold of a file record into a category's statistics, the
updated `top_files` list has at most 10 entries, is sorted descending by token
count, and keeps records with equal token counts as a subsequence of the
pre-sort list (prior list then the new record) — i.e. ties stay in encounter
order, as for Python's stable `sort(..., reverse=True)`. -/
theorem C7_top_files_invariant (cs : CatStats) (ext rel_path : Str) (loc tokens : Nat) :
    ((foldRecord cs ext rel_path loc tokens).top_files).length ≤ 10 ∧
      ((foldRecord cs ext rel_path loc tokens).top_files).Pairwise
        (fun a b => b.2.1 ≤ a.2.1) ∧
      ∀ t : Nat,
        List.Sublist
          (((foldRecord cs ext rel_path loc tokens).top_files).filter
            (fun r => r.2.1 = t))
          ((cs.top_files ++ [(rel_path, tokens, loc)]).filter (fun r => r.2.1 = t)) := by
  have hsorted := List.sorted_mergeSort tokensDesc_trans tokensDesc_total
    (cs.top_files ++ [(rel_path, tokens, loc)])
  refine ⟨?_, ?_, ?_⟩
  · simp only [foldRecord, List.length_take]
    exact min_le_left _ _
  · simp only [foldRecord]
    refine List.Pairwise.imp ?_
      (List.Pairwise.sublist (List.take_sublist 10 _) hsorted)
    intro a b h
    simpa [tokensDesc] using h
  · intro t
    simp only [foldRecord]
    have hfil : ((cs.top_files ++ [(rel_path, tokens, loc)]).mergeSort tokensDesc).filter
          (fun r => decide (r.2.1 = t)) =
        (cs.top_files ++ [(rel_path, tokens, loc)]).filter (fun r => decide (r.2.1 = t)) := by
      have hpairf : ((cs.top_files ++ [(rel_path, tokens, loc)]).filter
          (fun r => decide (r.2.1 = t))).Pairwise (fun a b => tokensDesc a b = true) := by
        apply pairwise_of_forall_mem
        intro a ha b hb
        have ha2 := of_decide_eq_true (List.mem_filter.mp ha).2
        have hb2 := of_decide_eq_true (List.mem_filter.mp hb).2
        simp only [tokensDesc, decide_eq_true_eq]
        omega
      have hsub2 : List.Sublist
          ((cs.top_files ++ [(rel_path, tokens, loc)]).filter
            (fun r => decide (r.2.1 = t)))
          ((cs.top_files ++ [(rel_path, tokens, loc)]).mergeSort tokensDesc) :=
        List.sublist_mergeSort tokensDesc_trans tokensDesc_total hpairf
          (List.filter_sublist _)
      have hperm : List.Perm
          (((cs.top_files ++ [(rel_path, tokens, loc)]).mergeSort tokensDesc).filter
            (fun r => decide (r.2.1 = t)))
          ((cs.top_files ++ [(rel_path, tokens, loc)]).filter (fun r => decide (r.2.1 = t))) :=
        (List.mergeSort_perm _ tokensDesc).filter _
      have hself : (((cs.top_files ++ [(rel_path, tokens, loc)]).filter
            (fun r => decide (r.2.1 = t))).filter (fun r => decide (r.2.1 = t))) =
          ((cs.top_files ++ [(rel_path, tokens, loc)]).filter (fun r => decide (r.2.1 = t))) := by
        refine List.filter_eq_self.mpr ?_
        intro a ha
        exact (List.mem_filter.mp ha).2
      have hsub3 := hsub2.filter (fun r => decide (r.2.1 = t))
      rw [hself] at hsub3
      exact (hsub3.eq_of_length hperm.length_eq.symm).symm
    have hfinal := List.Sublist.filter (fun r : Str × Nat × Nat => decide (r.2.1 = t))
      (List.take_sublist 10 ((cs.top_files ++ [(rel_path, tokens, loc)]).mergeSort tokensDesc))
    rw [hfil] at hfinal
    exact hfinal

/-!
## Claim C8 — glob matching on both path forms
-/

/-- C8: `should_ignore_file` ignores a file exactly when some pattern
glob-matches the forward-slash relative path or the bare filename; in
particular `dist/*` catches the relative path `dist/bundle.js`, and
`*.min.js` catches a file named `app.min.js` in any directory. -/
theorem C8_glob_on_rel_path_and_basename :
    (∀ (fp bp : Str) (pats : List Str),
       should_ignore_file fp bp pats = true ↔
         ∃ p ∈ pats, fnmatchList p (relpath fp bp) = true ∨
           fnmatchList p (basenameStr (relpath fp bp)) = true) ∧
    should_ignore_file (("/proj/dist/bundle.js").data) (("/proj").data)
        [("dist/*").data] = true ∧
    (∀ fp bp : Str, basenameStr (relpath fp bp) = ("app.min.js").data →
       should_ignore_file fp bp [("*.min.js").data] = true) := by
  have hiff : ∀ (fp bp : Str) (pats : List Str),
      should_ignore_file fp bp pats = true ↔
        ∃ p ∈ pats, fnmatchList p (relpath fp bp) = true ∨
          fnmatchList p (basenameStr (relpath fp bp)) = true := by
    intro fp bp pats
    unfold should_ignore_file
    simp only [List.any_eq_true, Bool.or_eq_true]
  refine ⟨hiff, by decide, ?_⟩
  intro fp bp hbase
  refine (hiff fp bp [("*.min.js").data]).mpr ?_
  refine ⟨("*.min.js").data, List.mem_singleton.mpr rfl, Or.inr ?_⟩
  rw [hbase]
  decide

/-- C8 witness: `app.min.js` two directories below the root is ignored via its
bare filename. -/
theorem C8_witness :
    should_ignore_file (("/p/sub/app.min.js").data) (("/p").data)
        [("*.min.js").data] = true :=
  C8_glob_on_rel_path_and_basename.2.2 (("/p/sub/app.min.js").data) (("/p").data)
    (by decide)

/-!
## Claim C3 — ignore-pattern resolution and the unreadable override file
-/

/-- A file system on which the project-local override file exists but cannot
be opened (e.g. a permission error or a directory named like the file). -/
def fsUnreadableOverride : FS where
  pathExists := fun p => decide (p = pyJoin (("/proj").data) ((".codeanalyzerignore").data))
  readText := fun _ => none
  globNonempty := fun _ => false

/-- C3 counterexample: on `fsUnreadableOverride`, `load_ignore_patterns`
raises (models the uncaught exception of the `open` call at line 257), so it
is not the case that it never raises to its caller. -/
theorem C3_counterexample :
    load_ignore_patterns fsUnreadableOverride (("/proj").data) = Except.error () := by
  rfl

/-- C3 (amended): `load_ignore_patterns` returns the baseline-derived set
without raising whenever the override file is missing, and also whenever it is
readable; only an override file that exists but whose `open`/read fails makes
the function raise to its caller. -/
theorem C3_raises_only_on_unreadable_override (fs : FS) (project_path : Str) :
    (fs.pathExists (pyJoin project_path ((".codeanalyzerignore").data)) = false →
       ∃ s : Finset Str, load_ignore_patterns fs project_path = Except.ok s) ∧
    (∀ content : Str,
       fs.readText (pyJoin project_path ((".codeanalyzerignore").data)) = some content →
       ∃ s : Finset Str, load_ignore_patterns fs project_path = Except.ok s) := by
  constructor
  · intro h
    cases hres : load_ignore_patterns fs project_path with
    | ok s => exact ⟨s, rfl⟩
    | error e =>
      simp only [load_ignore_patterns, h, Bool.false_eq_true, if_false] at hres
      exact Except.noConfusion hres
  · intro content h
    cases hres : load_ignore_patterns fs project_path with
    | ok s => exact ⟨s, rfl⟩
    | error e =>
      by_cases hex : fs.pathExists (pyJoin project_path ((".codeanalyzerignore").data)) = true
      · simp only [load_ignore_patterns, hex, if_true, h] at hres
        exact Except.noConfusion hres
      · rw [Bool.not_eq_true] at hex
        simp only [load_ignore_patterns, hex, Bool.false_eq_true, if_false] at hres
        exact Except.noConfusion hres

/-- C3 witness: with no override file present the function returns a set
without raising. -/
theorem C3_witness :
    ∃ s : Finset Str,
      load_ignore_patterns ⟨fun _ => false, fun _ => none, fun _ => false⟩
        (("/proj").data) = Except.ok s :=
  (C3_raises_only_on_unreadable_override ⟨fun _ => false, fun _ => none, fun _ => false⟩
    (("/proj").data)).1 rfl

end CodeAnalyzer
